import Mathlib

/-!
Shallow embedding of the bzimage crate (src/lib.rs).

The crate defines a 64-byte packed on-disk header (`BzImageHeader`) with a
4-byte magic, little-endian integer fields, a 32-byte SHA-256 checksum of the
compressed payload, and read/write/framing/verification operations.

Modelling conventions:
  - a byte stream is a `List Nat` of values below 256; the Rust `Read` state
    is passed explicitly, so a reader step returns the value read together
    with the remaining stream;
  - machine integers are `Nat` with explicit `% 2 ^ w` where the code
    truncates (the `as usize` cast);
  - fallible operations return `Except BzError`, mirroring `anyhow::Result`;
    the two error shapes the code produces are the explicit
    `bail!("invalid magic")` and the IO errors of `read_exact` and
    `read_specific`;
  - the little-endian wrapper types `u32le` and `u64le` of the
    `simple_endian` crate are modelled by storing the numeric value and
    serialising through `leBytes`, which is exactly their in-memory layout
    that `write_to` dumps and `read_specific` parses.
-/

/-! ### Little-endian byte encoding (model of `u32le` and `u64le` memory layout) -/

/-- Little-endian byte encoding of `v` on `w` bytes (the in-memory layout of
the `u32le` and `u64le` fields of the packed struct). -/
def leBytes : Nat → Nat → List Nat
  | 0, _ => []
  | w + 1, v => v % 256 :: leBytes w (v / 256)

/-- Value of a little-endian byte sequence. -/
def fromLEBytes : List Nat → Nat
  | [] => 0
  | b :: bs => b + 256 * fromLEBytes bs

/-- Big-endian byte encoding of `v` on `w` bytes (used by SHA-256). -/
def beBytes (w v : Nat) : List Nat := (leBytes w v).reverse

/-! ### SHA-256 (model of the `sha2` crate, FIPS 180-4) -/

/-- The 32-bit modulus. -/
def M32 : Nat := 4294967296

/-- Rotate a 32-bit word right by `n`, expressed arithmetically on `Nat`. -/
def rotr (n x : Nat) : Nat := (x / 2 ^ n + x % 2 ^ n * 2 ^ (32 - n)) % M32

/-- Shift a 32-bit word right by `n`. -/
def shr (n x : Nat) : Nat := x / 2 ^ n

/-- Choice function of SHA-256; the complement of `x` inside 32 bits is the
xor with the all-ones word. -/
def ch (x y z : Nat) : Nat := (x &&& y) ^^^ (((M32 - 1) ^^^ x) &&& z)

/-- Majority function of SHA-256. -/
def maj (x y z : Nat) : Nat := (x &&& y) ^^^ (x &&& z) ^^^ (y &&& z)

/-- The SHA-256 big sigma 0 function. -/
def bigSigma0 (x : Nat) : Nat := rotr 2 x ^^^ rotr 13 x ^^^ rotr 22 x

/-- The SHA-256 big sigma 1 function. -/
def bigSigma1 (x : Nat) : Nat := rotr 6 x ^^^ rotr 11 x ^^^ rotr 25 x

/-- The SHA-256 small sigma 0 function. -/
def smallSigma0 (x : Nat) : Nat := rotr 7 x ^^^ rotr 18 x ^^^ shr 3 x

/-- The SHA-256 small sigma 1 function. -/
def smallSigma1 (x : Nat) : Nat := rotr 17 x ^^^ rotr 19 x ^^^ shr 10 x

/-- The 64 round constants of SHA-256 (FIPS 180-4 section 4.2.2), written in
decimal. -/
def sha256K : List Nat :=
  [1116352408, 1899447441, 3049323471, 3921009573, 961987163,
   1508970993, 2453635748, 2870763221, 3624381080, 310598401,
   607225278, 1426881987, 1925078388, 2162078206, 2614888103,
   3248222580, 3835390401, 4022224774, 264347078, 604807628,
   770255983, 1249150122, 1555081692, 1996064986, 2554220882,
   2821834349, 2952996808, 3210313671, 3336571891, 3584528711,
   113926993, 338241895, 666307205, 773529912, 1294757372,
   1396182291, 1695183700, 1986661051, 2177026350, 2456956037,
   2730485921, 2820302411, 3259730800, 3345764771, 3516065817,
   3600352804, 4094571909, 275423344, 430227734, 506948616,
   659060556, 883997877, 958139571, 1322822218, 1537002063,
   1747873779, 1955562222, 2024104815, 2227730452, 2361852424,
   2428436474, 2756734187, 3204031479, 3329325298]

/-- The initial hash state of SHA-256 (FIPS 180-4 section 5.3.3), written in
decimal. -/
def sha256H0 : List Nat :=
  [1779033703, 3144134277, 1013904242, 2773480762,
   1359893119, 2600822924, 528734635, 1541459225]

/-- SHA-256 padding: append the 0x80 byte, zeros up to 56 mod 64, and the
big-endian 64-bit bit length. -/
def sha256Pad (msg : List Nat) : List Nat :=
  msg ++ [128] ++ List.replicate ((64 + 55 - msg.length % 64) % 64) 0 ++
    beBytes 8 ((8 * msg.length) % 2 ^ 64)

/-- Parse a block into big-endian 32-bit words. -/
def beWords : List Nat → List Nat
  | a :: b :: c :: d :: rest =>
      (256 * (256 * (256 * a + b) + c) + d) % M32 :: beWords rest
  | _ => []

/-- One step of the message-schedule extension. -/
def schedStep (w : List Nat) : Nat :=
  (smallSigma1 (w.getD (w.length - 2) 0) + w.getD (w.length - 7) 0 +
   smallSigma0 (w.getD (w.length - 15) 0) + w.getD (w.length - 16) 0) % M32

/-- Extend the message schedule by `n` words. -/
def extendSchedule : List Nat → Nat → List Nat
  | w, 0 => w
  | w, n + 1 => extendSchedule (w ++ [schedStep w]) n

/-- One SHA-256 compression round: the state is `(a, b, c, d, e, f, g, h)`
and the argument is the pair of the schedule word and the round constant. -/
def sha256Round (st : Nat × Nat × Nat × Nat × Nat × Nat × Nat × Nat)
    (wk : Nat × Nat) : Nat × Nat × Nat × Nat × Nat × Nat × Nat × Nat :=
  let a := st.1
  let b := st.2.1
  let c := st.2.2.1
  let d := st.2.2.2.1
  let e := st.2.2.2.2.1
  let f := st.2.2.2.2.2.1
  let g := st.2.2.2.2.2.2.1
  let h := st.2.2.2.2.2.2.2
  let t1 := (h + bigSigma1 e + ch e f g + wk.2 + wk.1) % M32
  let t2 := (bigSigma0 a + maj a b c) % M32
  ((t1 + t2) % M32, a, b, c, (d + t1) % M32, e, f, g)

/-- Compress one 64-byte block into the running hash state (8 words). -/
def compressBlock (H : List Nat) (block : List Nat) : List Nat :=
  let w := extendSchedule (beWords block) 48
  let a0 := H.getD 0 0
  let b0 := H.getD 1 0
  let c0 := H.getD 2 0
  let d0 := H.getD 3 0
  let e0 := H.getD 4 0
  let f0 := H.getD 5 0
  let g0 := H.getD 6 0
  let h0 := H.getD 7 0
  let st := (w.zip sha256K).foldl sha256Round (a0, b0, c0, d0, e0, f0, g0, h0)
  [(a0 + st.1) % M32, (b0 + st.2.1) % M32, (c0 + st.2.2.1) % M32,
   (d0 + st.2.2.2.1) % M32, (e0 + st.2.2.2.2.1) % M32,
   (f0 + st.2.2.2.2.2.1) % M32, (g0 + st.2.2.2.2.2.2.1) % M32,
   (h0 + st.2.2.2.2.2.2.2) % M32]

/-- Split a list into 64-byte chunks. -/
def chunks64 : List Nat → List (List Nat)
  | [] => []
  | a :: t => (a :: t).take 64 :: chunks64 ((a :: t).drop 64)
termination_by l => l.length
decreasing_by
  simp only [List.length_drop, List.length_cons]
  omega

/-- SHA-256 digest of a byte sequence, as 32 bytes. -/
def sha256 (msg : List Nat) : List Nat :=
  (((chunks64 (sha256Pad msg)).foldl compressBlock sha256H0).map (beBytes 4)).flatten

/-! ### The bzimage container (src/lib.rs) -/

/-- Four-byte ASCII magic that identifies a bzimage header on disk: `DMNZ`. -/
def MAGIC : List Nat := [68, 77, 78, 90]

/-- Current on-disk format version. -/
def VERSION : Nat := 1

/-- The header size in bytes (the packed header is 64 bytes). -/
def HEADER_SIZE : Nat := 64

/-- The 64-byte packed header: magic, version, reserved1, uncompressed_size,
compressed_size, checksum, reserved2, in declaration order with no padding.
Integer fields are stored little-endian on disk; the model keeps their
numeric value. -/
structure BzImageHeader where
  magic : List Nat
  version : Nat
  reserved1 : Nat
  uncompressed_size : Nat
  compressed_size : Nat
  checksum : List Nat
  reserved2 : Nat
deriving DecidableEq

/-- Error shapes of the crate: the explicit invalid-magic bailout, and the
IO failures of `read_exact` and `read_specific` (their message contexts are
not modelled). -/
inductive BzError where
  | invalidMagic : BzError
  | ioFailure : BzError
deriving DecidableEq

/-- Equality of `Except` values is decidable when it is on both sides. -/
instance instDecidableEqExcept {ε α : Type} [DecidableEq ε] [DecidableEq α] :
    DecidableEq (Except ε α) := fun x y =>
  match x, y with
  | Except.ok a, Except.ok b =>
      if h : a = b then Decidable.isTrue (by rw [h])
      else Decidable.isFalse (by intro hc; injection hc; contradiction)
  | Except.error e, Except.error e2 =>
      if h : e = e2 then Decidable.isTrue (by rw [h])
      else Decidable.isFalse (by intro hc; injection hc; contradiction)
  | Except.ok _, Except.error _ =>
      Decidable.isFalse (by intro hc; exact Except.noConfusion hc)
  | Except.error _, Except.ok _ =>
      Decidable.isFalse (by intro hc; exact Except.noConfusion hc)

/-- Model of `Read::read_exact` into an `n`-byte buffer: returns the bytes
and the remaining stream, or an IO error when the stream is too short. -/
def readBytesE (n : Nat) (s : List Nat) : Except BzError (List Nat × List Nat) :=
  if n ≤ s.length then Except.ok (s.take n, s.drop n)
  else Except.error BzError.ioFailure

/-- Model of `simple_endian::read_specific` for a `w`-byte little-endian
integer field. -/
def read_specific (w : Nat) (s : List Nat) : Except BzError (Nat × List Nat) :=
  Except.bind (readBytesE w s) fun p => Except.ok (fromLEBytes p.1, p.2)

namespace BzImageHeader

/-- Model of `BzImageHeader::size`: size_of of the packed struct. -/
def size : Nat := 64

/-- Model of `write_to`: dump the packed struct memory, which is the fields
in declaration order with the integer fields little-endian and no padding. -/
def write_to (h : BzImageHeader) : List Nat :=
  h.magic ++ leBytes 4 h.version ++ leBytes 4 h.reserved1 ++
    leBytes 8 h.uncompressed_size ++ leBytes 8 h.compressed_size ++
    h.checksum ++ leBytes 4 h.reserved2

/-- Model of `read_from`: read the magic, bail out when it differs from
`MAGIC`, then read the remaining fields one by one, each read independently
fallible. -/
def read_from (s : List Nat) : Except BzError (BzImageHeader × List Nat) :=
  Except.bind (readBytesE 4 s) fun pm =>
  if pm.1 = MAGIC then
    Except.bind (read_specific 4 pm.2) fun pv =>
    Except.bind (read_specific 4 pv.2) fun p1 =>
    Except.bind (read_specific 8 p1.2) fun pu =>
    Except.bind (read_specific 8 pu.2) fun pc =>
    Except.bind (readBytesE 32 pc.2) fun pk =>
    Except.bind (read_specific 4 pk.2) fun p2 =>
    Except.ok
      ({ magic := pm.1, version := pv.1, reserved1 := p1.1,
         uncompressed_size := pu.1, compressed_size := pc.1,
         checksum := pk.1, reserved2 := p2.1 }, p2.2)
  else Except.error BzError.invalidMagic

/-- Model of `magic_copy`: copy the four magic bytes out of the packed
struct. -/
def magic_copy (h : BzImageHeader) : List Nat := h.magic

/-- Model of `checksum_copy`: copy the 32 checksum bytes out of the packed
struct. -/
def checksum_copy (h : BzImageHeader) : List Nat := h.checksum

/-- Model of `validate_checksum`: hash exactly the given bytes with SHA-256
and compare with the stored checksum for equality. -/
def validate_checksum (h : BzImageHeader) (compressed_data : List Nat) : Bool :=
  decide (sha256 compressed_data = h.checksum_copy)

/-- Model of `read_header_and_payload`, parameterised by the bit width `w`
of `usize`: read the header, truncate the `u64` field `compressed_size` to
`usize` (the `as usize` cast is `% 2 ^ w`), then read that many payload
bytes. -/
def read_header_and_payload_w (w : Nat) (s : List Nat) :
    Except BzError (BzImageHeader × List Nat) :=
  Except.bind (read_from s) fun ph =>
  Except.bind (readBytesE (ph.1.compressed_size % 2 ^ w) ph.2) fun pp =>
  Except.ok (ph.1, pp.1)

/-- Model of `read_header_and_payload` on a 64-bit target, where `usize` is
64 bits wide. -/
def read_header_and_payload (s : List Nat) :
    Except BzError (BzImageHeader × List Nat) :=
  read_header_and_payload_w 64 s

end BzImageHeader

/-! ### Basic facts about the byte encodings -/

theorem leBytes_length (w v : Nat) : (leBytes w v).length = w := by
  induction w generalizing v with
  | zero => rfl
  | succ w ih => simp [leBytes, ih]

theorem fromLEBytes_leBytes (w v : Nat) :
    fromLEBytes (leBytes w v) = v % 256 ^ w := by
  induction w generalizing v with
  | zero => simp [leBytes, fromLEBytes, Nat.mod_one]
  | succ w ih =>
      have h256 : (256 : Nat) ^ (w + 1) = 256 * 256 ^ w := by ring
      simp only [leBytes, fromLEBytes, ih, h256]
      rw [Nat.mod_mul]

theorem fromLEBytes_leBytes_of_lt (w v : Nat) (hv : v < 256 ^ w) :
    fromLEBytes (leBytes w v) = v := by
  rw [fromLEBytes_leBytes, Nat.mod_eq_of_lt hv]

theorem leBytes_getD (w v i : Nat) (hi : i < w) :
    (leBytes w v).getD i 0 = v / 256 ^ i % 256 := by
  induction w generalizing v i with
  | zero => omega
  | succ w ih =>
      cases i with
      | zero => simp [leBytes]
      | succ i =>
          have : i < w := by omega
          simp only [leBytes, List.getD_cons_succ, ih _ _ this,
            Nat.div_div_eq_div_mul]
          ring_nf

theorem fromLEBytes_lt (bs : List Nat) (hb : ∀ b ∈ bs, b < 256) :
    fromLEBytes bs < 256 ^ bs.length := by
  induction bs with
  | nil => simp [fromLEBytes]
  | cons b t ih =>
      have hbb : b < 256 := hb b (List.mem_cons_self b t)
      have ht : fromLEBytes t < 256 ^ t.length :=
        ih fun x hx => hb x (List.mem_cons_of_mem b hx)
      have h256 : (256 : Nat) ^ (b :: t).length = 256 * 256 ^ t.length := by
        simp [List.length_cons]; ring
      simp only [fromLEBytes, h256]
      omega

theorem leBytes_lt (w v : Nat) : ∀ b ∈ leBytes w v, b < 256 := by
  induction w generalizing v with
  | zero => simp [leBytes]
  | succ w ih =>
      intro b hb
      simp only [leBytes, List.mem_cons] at hb
      rcases hb with h | h
      · omega
      · exact ih _ b h

theorem beBytes_length (w v : Nat) : (beBytes w v).length = w := by
  simp [beBytes, leBytes_length]

/-! ### The digest always has 32 bytes -/

theorem compressBlock_length (H block : List Nat) :
    (compressBlock H block).length = 8 := by
  simp [compressBlock]

theorem foldl_compressBlock_length (blocks : List (List Nat)) (H : List Nat)
    (hH : H.length = 8) : (blocks.foldl compressBlock H).length = 8 := by
  induction blocks generalizing H with
  | nil => simpa
  | cons b t ih => simpa using ih (compressBlock H b) (compressBlock_length H b)

theorem sha256_length (msg : List Nat) : (sha256 msg).length = 32 := by
  have h8 : ((chunks64 (sha256Pad msg)).foldl compressBlock sha256H0).length = 8 :=
    foldl_compressBlock_length _ _ rfl
  generalize hst : (chunks64 (sha256Pad msg)).foldl compressBlock sha256H0 = st at h8
  simp only [sha256, hst]
  rcases st with _ | ⟨a, _ | ⟨b, _ | ⟨c, _ | ⟨d, _ | ⟨e, _ | ⟨f, _ | ⟨g, _ | ⟨h, t⟩⟩⟩⟩⟩⟩⟩⟩ <;>
    simp_all [beBytes_length]

/-! ### Reader lemmas -/

theorem exceptBind_ok {α β : Type} (a : α) (f : α → Except BzError β) :
    Except.bind (Except.ok a) f = f a := rfl

theorem exceptBind_err {α β : Type} (e : BzError) (f : α → Except BzError β) :
    Except.bind (Except.error e) f = (Except.error e : Except BzError β) := rfl

theorem readBytesE_ok (n : Nat) (s : List Nat) (h : n ≤ s.length) :
    readBytesE n s = Except.ok (s.take n, s.drop n) := by
  simp [readBytesE, h]

theorem readBytesE_err (n : Nat) (s : List Nat) (h : s.length < n) :
    readBytesE n s = Except.error BzError.ioFailure := by
  rw [readBytesE, if_neg (by omega)]

theorem readBytesE_append (n : Nat) (xs ys : List Nat) (h : xs.length = n) :
    readBytesE n (xs ++ ys) = Except.ok (xs, ys) := by
  have hle : n ≤ (xs ++ ys).length := by simp [List.length_append]; omega
  rw [readBytesE_ok n _ hle, List.take_left' h, List.drop_left' h]

theorem read_specific_ok (n : Nat) (s : List Nat) (h : n ≤ s.length) :
    read_specific n s = Except.ok (fromLEBytes (s.take n), s.drop n) := by
  rw [read_specific, readBytesE_ok n s h, exceptBind_ok]

theorem read_specific_err (n : Nat) (s : List Nat) (h : s.length < n) :
    read_specific n s = Except.error BzError.ioFailure := by
  rw [read_specific, readBytesE_err n s h, exceptBind_err]

theorem read_specific_append (n : Nat) (xs ys : List Nat) (h : xs.length = n) :
    read_specific n (xs ++ ys) = Except.ok (fromLEBytes xs, ys) := by
  rw [read_specific, readBytesE_append n xs ys h, exceptBind_ok]

/-! ### Characterisation of `read_from` -/

theorem read_from_ok (s : List Nat) (hlen : 64 ≤ s.length)
    (hm : s.take 4 = MAGIC) :
    BzImageHeader.read_from s = Except.ok
      ({ magic := MAGIC,
         version := fromLEBytes ((s.drop 4).take 4),
         reserved1 := fromLEBytes ((s.drop 8).take 4),
         uncompressed_size := fromLEBytes ((s.drop 12).take 8),
         compressed_size := fromLEBytes ((s.drop 20).take 8),
         checksum := (s.drop 28).take 32,
         reserved2 := fromLEBytes ((s.drop 60).take 4) }, s.drop 64) := by
  have h0 : readBytesE 4 s = Except.ok (s.take 4, s.drop 4) :=
    readBytesE_ok 4 s (by omega)
  have h1 : read_specific 4 (s.drop 4) =
      Except.ok (fromLEBytes ((s.drop 4).take 4), s.drop 8) := by
    rw [read_specific_ok 4 _ (by simp [List.length_drop]; omega), List.drop_drop]
  have h2 : read_specific 4 (s.drop 8) =
      Except.ok (fromLEBytes ((s.drop 8).take 4), s.drop 12) := by
    rw [read_specific_ok 4 _ (by simp [List.length_drop]; omega), List.drop_drop]
  have h3 : read_specific 8 (s.drop 12) =
      Except.ok (fromLEBytes ((s.drop 12).take 8), s.drop 20) := by
    rw [read_specific_ok 8 _ (by simp [List.length_drop]; omega), List.drop_drop]
  have h4 : read_specific 8 (s.drop 20) =
      Except.ok (fromLEBytes ((s.drop 20).take 8), s.drop 28) := by
    rw [read_specific_ok 8 _ (by simp [List.length_drop]; omega), List.drop_drop]
  have h5 : readBytesE 32 (s.drop 28) =
      Except.ok ((s.drop 28).take 32, s.drop 60) := by
    rw [readBytesE_ok 32 _ (by simp [List.length_drop]; omega), List.drop_drop]
  have h6 : read_specific 4 (s.drop 60) =
      Except.ok (fromLEBytes ((s.drop 60).take 4), s.drop 64) := by
    rw [read_specific_ok 4 _ (by simp [List.length_drop]; omega), List.drop_drop]
  simp only [BzImageHeader.read_from, h0, h1, h2, h3, h4, h5, h6,
    exceptBind_ok, hm, if_true, eq_self_iff_true]

theorem read_from_invalid (s : List Nat) (hlen : 4 ≤ s.length)
    (hm : s.take 4 ≠ MAGIC) :
    BzImageHeader.read_from s = Except.error BzError.invalidMagic := by
  rw [BzImageHeader.read_from, readBytesE_ok 4 s hlen, exceptBind_ok]
  simp only [if_neg hm]

theorem read_from_not_ok_of_short (s : List Nat) (hl : s.length < 64) :
    (BzImageHeader.read_from s).isOk = false := by
  by_cases h4 : 4 ≤ s.length
  · by_cases hm : s.take 4 = MAGIC
    · rw [BzImageHeader.read_from, readBytesE_ok 4 s h4, exceptBind_ok]
      simp only [hm, if_true, eq_self_iff_true]
      by_cases c1 : 4 ≤ (s.drop 4).length
      · rw [read_specific_ok 4 _ c1, exceptBind_ok]
        dsimp only
        by_cases c2 : 4 ≤ ((s.drop 4).drop 4).length
        · rw [read_specific_ok 4 _ c2, exceptBind_ok]
          dsimp only
          by_cases c3 : 8 ≤ (((s.drop 4).drop 4).drop 4).length
          · rw [read_specific_ok 8 _ c3, exceptBind_ok]
            dsimp only
            by_cases c4 : 8 ≤ ((((s.drop 4).drop 4).drop 4).drop 8).length
            · rw [read_specific_ok 8 _ c4, exceptBind_ok]
              dsimp only
              by_cases c5 :
                  32 ≤ (((((s.drop 4).drop 4).drop 4).drop 8).drop 8).length
              · rw [readBytesE_ok 32 _ c5, exceptBind_ok]
                dsimp only
                have c6 :
                    ((((((s.drop 4).drop 4).drop 4).drop 8).drop 8).drop 32).length < 4 := by
                  simp only [List.length_drop]
                  omega
                rw [read_specific_err 4 _ c6, exceptBind_err]
                rfl
              · rw [readBytesE_err 32 _ (by omega), exceptBind_err]
                rfl
            · rw [read_specific_err 8 _ (by omega), exceptBind_err]
              rfl
          · rw [read_specific_err 8 _ (by omega), exceptBind_err]
            rfl
        · rw [read_specific_err 4 _ (by omega), exceptBind_err]
          rfl
      · rw [read_specific_err 4 _ (by omega), exceptBind_err]
        rfl
    · rw [read_from_invalid s h4 hm]
      rfl
  · rw [BzImageHeader.read_from, readBytesE_err 4 s (by omega), exceptBind_err]
    rfl

theorem read_from_ok_inv (s : List Nat) (p : BzImageHeader × List Nat)
    (h : BzImageHeader.read_from s = Except.ok p) :
    64 ≤ s.length ∧ s.take 4 = MAGIC := by
  by_cases hl : 64 ≤ s.length
  · by_cases hm : s.take 4 = MAGIC
    · exact ⟨hl, hm⟩
    · rw [read_from_invalid s (by omega) hm] at h
      exact absurd h (by simp)
  · have := read_from_not_ok_of_short s (by omega)
    rw [h] at this
    exact absurd this (by simp [Except.isOk, Except.toBool])

/-! ### Layout of the written header -/

theorem getD_drop (l : List Nat) (n m : Nat) :
    (l.drop n).getD m 0 = l.getD (n + m) 0 := by
  simp [List.getD_eq_getElem?_getD, List.getElem?_drop]

theorem write_to_assoc (h : BzImageHeader) :
    h.write_to = h.magic ++ (leBytes 4 h.version ++ (leBytes 4 h.reserved1 ++
      (leBytes 8 h.uncompressed_size ++ (leBytes 8 h.compressed_size ++
      (h.checksum ++ leBytes 4 h.reserved2))))) := by
  simp [BzImageHeader.write_to, List.append_assoc]

theorem write_to_length (h : BzImageHeader) (hm : h.magic.length = 4)
    (hk : h.checksum.length = 32) : h.write_to.length = 64 := by
  simp [BzImageHeader.write_to, List.length_append, leBytes_length, hm, hk]

theorem write_to_drop4 (h : BzImageHeader) (hm : h.magic.length = 4) :
    h.write_to.drop 4 = leBytes 4 h.version ++ (leBytes 4 h.reserved1 ++
      (leBytes 8 h.uncompressed_size ++ (leBytes 8 h.compressed_size ++
      (h.checksum ++ leBytes 4 h.reserved2)))) := by
  rw [write_to_assoc]
  exact List.drop_left' hm

theorem write_to_drop8 (h : BzImageHeader) (hm : h.magic.length = 4) :
    h.write_to.drop 8 = leBytes 4 h.reserved1 ++
      (leBytes 8 h.uncompressed_size ++ (leBytes 8 h.compressed_size ++
      (h.checksum ++ leBytes 4 h.reserved2))) := by
  have he : (8 : Nat) = 4 + 4 := rfl
  rw [he, ← List.drop_drop, write_to_drop4 h hm]
  exact List.drop_left' (leBytes_length 4 _)

theorem write_to_drop12 (h : BzImageHeader) (hm : h.magic.length = 4) :
    h.write_to.drop 12 = leBytes 8 h.uncompressed_size ++
      (leBytes 8 h.compressed_size ++ (h.checksum ++ leBytes 4 h.reserved2)) := by
  have he : (12 : Nat) = 8 + 4 := rfl
  rw [he, ← List.drop_drop, write_to_drop8 h hm]
  exact List.drop_left' (leBytes_length 4 _)

theorem write_to_drop20 (h : BzImageHeader) (hm : h.magic.length = 4) :
    h.write_to.drop 20 = leBytes 8 h.compressed_size ++
      (h.checksum ++ leBytes 4 h.reserved2) := by
  have he : (20 : Nat) = 12 + 8 := rfl
  rw [he, ← List.drop_drop, write_to_drop12 h hm]
  exact List.drop_left' (leBytes_length 8 _)

theorem write_to_drop28 (h : BzImageHeader) (hm : h.magic.length = 4) :
    h.write_to.drop 28 = h.checksum ++ leBytes 4 h.reserved2 := by
  have he : (28 : Nat) = 20 + 8 := rfl
  rw [he, ← List.drop_drop, write_to_drop20 h hm]
  exact List.drop_left' (leBytes_length 8 _)

theorem write_to_drop60 (h : BzImageHeader) (hm : h.magic.length = 4)
    (hk : h.checksum.length = 32) :
    h.write_to.drop 60 = leBytes 4 h.reserved2 := by
  have he : (60 : Nat) = 28 + 32 := rfl
  rw [he, ← List.drop_drop, write_to_drop28 h hm]
  exact List.drop_left' hk

/-- C2: for every header value (its byte fields having the sizes the Rust
types force: 4 magic bytes and 32 checksum bytes), `write_to` writes exactly
64 bytes, with the fields laid out in table order at offsets 0 (magic, 4
bytes), 4 (version), 8 (reserved1), 12 (uncompressed_size), 20
(compressed_size), 28 (checksum, 32 bytes), 60 (reserved2), each multi-byte
integer in little-endian byte order (byte `i` of a field with value `v` is
`v / 256 ^ i % 256`), with no padding between fields and no trailing
padding. -/
theorem C2_encoding_layout (h : BzImageHeader)
    (hm : h.magic.length = 4) (hk : h.checksum.length = 32) :
    h.write_to.length = 64 ∧
    h.write_to.take 4 = h.magic ∧
    (∀ i, i < 4 → h.write_to.getD (4 + i) 0 = h.version / 256 ^ i % 256) ∧
    (∀ i, i < 4 → h.write_to.getD (8 + i) 0 = h.reserved1 / 256 ^ i % 256) ∧
    (∀ i, i < 8 →
      h.write_to.getD (12 + i) 0 = h.uncompressed_size / 256 ^ i % 256) ∧
    (∀ i, i < 8 →
      h.write_to.getD (20 + i) 0 = h.compressed_size / 256 ^ i % 256) ∧
    (h.write_to.drop 28).take 32 = h.checksum ∧
    (∀ i, i < 4 → h.write_to.getD (60 + i) 0 = h.reserved2 / 256 ^ i % 256) := by
  refine ⟨write_to_length h hm hk, ?_, ?_, ?_, ?_, ?_, ?_, ?_⟩
  · rw [write_to_assoc]
    exact List.take_left' hm
  · intro i hi
    rw [← getD_drop h.write_to 4 i, write_to_drop4 h hm,
      List.getD_append _ _ _ i (by rw [leBytes_length]; omega)]
    exact leBytes_getD 4 h.version i hi
  · intro i hi
    rw [← getD_drop h.write_to 8 i, write_to_drop8 h hm,
      List.getD_append _ _ _ i (by rw [leBytes_length]; omega)]
    exact leBytes_getD 4 h.reserved1 i hi
  · intro i hi
    rw [← getD_drop h.write_to 12 i, write_to_drop12 h hm,
      List.getD_append _ _ _ i (by rw [leBytes_length]; omega)]
    exact leBytes_getD 8 h.uncompressed_size i hi
  · intro i hi
    rw [← getD_drop h.write_to 20 i, write_to_drop20 h hm,
      List.getD_append _ _ _ i (by rw [leBytes_length]; omega)]
    exact leBytes_getD 8 h.compressed_size i hi
  · rw [write_to_drop28 h hm]
    exact List.take_left' hk
  · intro i hi
    rw [← getD_drop h.write_to 60 i, write_to_drop60 h hm hk]
    exact leBytes_getD 4 h.reserved2 i hi

/-- Witness for C2 at a concrete header. -/
theorem C2_encoding_layout_witness :
    (BzImageHeader.write_to
        ⟨MAGIC, 1, 0, 0, 0, List.replicate 32 0, 0⟩).length = 64 ∧
    (BzImageHeader.write_to
        ⟨MAGIC, 1, 0, 0, 0, List.replicate 32 0, 0⟩).take 4 = MAGIC ∧
    (∀ i, i < 4 →
      (BzImageHeader.write_to
        ⟨MAGIC, 1, 0, 0, 0, List.replicate 32 0, 0⟩).getD (4 + i) 0 =
        1 / 256 ^ i % 256) ∧
    (∀ i, i < 4 →
      (BzImageHeader.write_to
        ⟨MAGIC, 1, 0, 0, 0, List.replicate 32 0, 0⟩).getD (8 + i) 0 =
        0 / 256 ^ i % 256) ∧
    (∀ i, i < 8 →
      (BzImageHeader.write_to
        ⟨MAGIC, 1, 0, 0, 0, List.replicate 32 0, 0⟩).getD (12 + i) 0 =
        0 / 256 ^ i % 256) ∧
    (∀ i, i < 8 →
      (BzImageHeader.write_to
        ⟨MAGIC, 1, 0, 0, 0, List.replicate 32 0, 0⟩).getD (20 + i) 0 =
        0 / 256 ^ i % 256) ∧
    ((BzImageHeader.write_to
        ⟨MAGIC, 1, 0, 0, 0, List.replicate 32 0, 0⟩).drop 28).take 32 =
      List.replicate 32 0 ∧
    (∀ i, i < 4 →
      (BzImageHeader.write_to
        ⟨MAGIC, 1, 0, 0, 0, List.replicate 32 0, 0⟩).getD (60 + i) 0 =
        0 / 256 ^ i % 256) :=
  C2_encoding_layout ⟨MAGIC, 1, 0, 0, 0, List.replicate 32 0, 0⟩
    (by decide) (by simp)

/-! ### Reading a structured stream -/

theorem read_from_append (v r1 us cs ck r2 rest : List Nat)
    (hv : v.length = 4) (h1 : r1.length = 4) (hu : us.length = 8)
    (hc : cs.length = 8) (hk : ck.length = 32) (h2 : r2.length = 4) :
    BzImageHeader.read_from
        (MAGIC ++ (v ++ (r1 ++ (us ++ (cs ++ (ck ++ (r2 ++ rest))))))) =
      Except.ok
        ({ magic := MAGIC, version := fromLEBytes v, reserved1 := fromLEBytes r1,
           uncompressed_size := fromLEBytes us, compressed_size := fromLEBytes cs,
           checksum := ck, reserved2 := fromLEBytes r2 }, rest) := by
  rw [BzImageHeader.read_from, readBytesE_append 4 _ _ (by rfl), exceptBind_ok]
  dsimp only
  rw [if_pos rfl, read_specific_append 4 _ _ hv, exceptBind_ok]
  dsimp only
  rw [read_specific_append 4 _ _ h1, exceptBind_ok]
  dsimp only
  rw [read_specific_append 8 _ _ hu, exceptBind_ok]
  dsimp only
  rw [read_specific_append 8 _ _ hc, exceptBind_ok]
  dsimp only
  rw [readBytesE_append 32 _ _ hk, exceptBind_ok]
  dsimp only
  rw [read_specific_append 4 _ _ h2, exceptBind_ok]

/-- C1: for every header whose magic is the `DMNZ` bytes, whose
compressed_size is the length of the payload `C`, whose checksum is the
SHA-256 digest of `C`, and whose integer fields are in the ranges of their
Rust types (`u32` and `u64`), writing the header with `write_to` followed
immediately by `C` and reading the stream back with
`read_header_and_payload` returns a header equal to the original in every
field (reserved1 and reserved2 included) and a payload equal to `C`, and
`validate_checksum` on that header and payload returns true. -/
theorem C1_roundtrip (h : BzImageHeader) (C : List Nat)
    (hm : h.magic = MAGIC)
    (hcs : h.compressed_size = C.length)
    (hck : h.checksum = sha256 C)
    (hv : h.version < 2 ^ 32) (hr1 : h.reserved1 < 2 ^ 32)
    (hu : h.uncompressed_size < 2 ^ 64) (hC : C.length < 2 ^ 64)
    (hr2 : h.reserved2 < 2 ^ 32) :
    BzImageHeader.read_header_and_payload (h.write_to ++ C) =
      Except.ok (h, C) ∧
    BzImageHeader.validate_checksum h C = true := by
  obtain ⟨mg, ver, r1, us, cs, ck, r2⟩ := h
  simp only at hm hcs hck hv hr1 hu hr2
  subst hm hcs hck
  have h32 : (256 : Nat) ^ 4 = 2 ^ 32 := by norm_num
  have h64 : (256 : Nat) ^ 8 = 2 ^ 64 := by norm_num
  have hkl : (sha256 C).length = 32 := sha256_length C
  have hs : BzImageHeader.write_to ⟨MAGIC, ver, r1, us, C.length, sha256 C, r2⟩ ++ C =
      MAGIC ++ (leBytes 4 ver ++ (leBytes 4 r1 ++ (leBytes 8 us ++
        (leBytes 8 C.length ++ (sha256 C ++ (leBytes 4 r2 ++ C)))))) := by
    simp [BzImageHeader.write_to, List.append_assoc]
  constructor
  · rw [BzImageHeader.read_header_and_payload,
      BzImageHeader.read_header_and_payload_w, hs,
      read_from_append _ _ _ _ _ _ _ (leBytes_length 4 ver) (leBytes_length 4 r1)
        (leBytes_length 8 us) (leBytes_length 8 C.length) hkl (leBytes_length 4 r2),
      exceptBind_ok]
    dsimp only
    rw [fromLEBytes_leBytes_of_lt 8 C.length (by rw [h64]; exact hC),
      Nat.mod_eq_of_lt hC, readBytesE_ok C.length C (Nat.le_refl _), exceptBind_ok]
    dsimp only
    rw [List.take_length,
      fromLEBytes_leBytes_of_lt 4 ver (by rw [h32]; exact hv),
      fromLEBytes_leBytes_of_lt 4 r1 (by rw [h32]; exact hr1),
      fromLEBytes_leBytes_of_lt 8 us (by rw [h64]; exact hu),
      fromLEBytes_leBytes_of_lt 4 r2 (by rw [h32]; exact hr2)]
  · simp [BzImageHeader.validate_checksum, BzImageHeader.checksum_copy]

/-- Witness for C1 at the empty payload and a header whose checksum field
holds the digest of the empty byte sequence. -/
theorem C1_roundtrip_witness :
    BzImageHeader.read_header_and_payload
        (BzImageHeader.write_to ⟨MAGIC, 1, 0, 0, 0, sha256 [], 0⟩ ++ []) =
      Except.ok (⟨MAGIC, 1, 0, 0, 0, sha256 [], 0⟩, []) ∧
    BzImageHeader.validate_checksum ⟨MAGIC, 1, 0, 0, 0, sha256 [], 0⟩ [] = true :=
  C1_roundtrip ⟨MAGIC, 1, 0, 0, 0, sha256 [], 0⟩ [] rfl rfl rfl
    (by norm_num) (by norm_num) (by norm_num) (by norm_num) (by norm_num)

/-! ### Bounding the compressed_size field read from a byte stream -/

theorem compressed_field_lt (s : List Nat) (hb : ∀ b ∈ s, b < 256)
    (hlen : 64 ≤ s.length) :
    fromLEBytes ((s.drop 20).take 8) < 2 ^ 64 := by
  have hl8 : ((s.drop 20).take 8).length = 8 := by
    simp only [List.length_take, List.length_drop]
    omega
  have hbb : ∀ b ∈ (s.drop 20).take 8, b < 256 := fun b hbm =>
    hb b (List.mem_of_mem_drop (List.mem_of_mem_take hbm))
  have := fromLEBytes_lt _ hbb
  rw [hl8] at this
  calc fromLEBytes ((s.drop 20).take 8) < 256 ^ 8 := this
    _ = 2 ^ 64 := by norm_num

/-- C3: for every input stream holding at least 4 bytes whose first 4 bytes
differ from the ASCII bytes `D`, `M`, `N`, `Z`, `read_from` fails with the
invalid-magic error, regardless of the content of the remaining bytes of
the stream. -/
theorem C3_invalid_magic (s : List Nat) (hlen : 4 ≤ s.length)
    (hm : s.take 4 ≠ MAGIC) :
    BzImageHeader.read_from s = Except.error BzError.invalidMagic :=
  read_from_invalid s hlen hm

/-- Witness for C3 at a concrete stream starting with the bytes `BAD!`. -/
theorem C3_invalid_magic_witness :
    BzImageHeader.read_from [66, 65, 68, 33, 255, 0, 7] =
      Except.error BzError.invalidMagic :=
  C3_invalid_magic [66, 65, 68, 33, 255, 0, 7] (by decide) (by decide)

/-- C4: for every stream holding fewer than 64 bytes, `read_from` returns
an error (each field read fails as soon as insufficient bytes remain, so no
partial header is ever returned); and for every byte stream holding a valid
64-byte header followed by fewer than compressed_size bytes,
`read_header_and_payload` returns an error. -/
theorem C4_truncation :
    (∀ s : List Nat, s.length < 64 →
      (BzImageHeader.read_from s).isOk = false) ∧
    (∀ s : List Nat, (∀ b ∈ s, b < 256) → 64 ≤ s.length →
      s.take 4 = MAGIC →
      s.length < 64 + fromLEBytes ((s.drop 20).take 8) →
      (BzImageHeader.read_header_and_payload s).isOk = false) := by
  constructor
  · intro s hs
    exact read_from_not_ok_of_short s hs
  · intro s hb hlen hm hshort
    rw [BzImageHeader.read_header_and_payload,
      BzImageHeader.read_header_and_payload_w, read_from_ok s hlen hm,
      exceptBind_ok]
    dsimp only
    rw [Nat.mod_eq_of_lt (compressed_field_lt s hb hlen)]
    rw [readBytesE_err _ _ (by simp only [List.length_drop]; omega),
      exceptBind_err]
    rfl

/-- Witness for C4: a 63-byte stream fails header decode, and a stream with
a valid header declaring compressed_size 5 but only 2 trailing bytes fails
the payload read. -/
theorem C4_truncation_witness :
    (BzImageHeader.read_from (List.replicate 63 0)).isOk = false ∧
    (BzImageHeader.read_header_and_payload
        (MAGIC ++ ([1, 0, 0, 0] ++ ([0, 0, 0, 0] ++
          ([0, 0, 0, 0, 0, 0, 0, 0] ++ ([5, 0, 0, 0, 0, 0, 0, 0] ++
          (List.replicate 32 0 ++ ([0, 0, 0, 0] ++ [9, 9])))))))).isOk =
      false :=
  ⟨C4_truncation.1 (List.replicate 63 0) (by decide),
   C4_truncation.2
     (MAGIC ++ ([1, 0, 0, 0] ++ ([0, 0, 0, 0] ++
       ([0, 0, 0, 0, 0, 0, 0, 0] ++ ([5, 0, 0, 0, 0, 0, 0, 0] ++
       (List.replicate 32 0 ++ ([0, 0, 0, 0] ++ [9, 9])))))))
     (by decide) (by decide) (by decide) (by decide)⟩

/-- C5: for every header and every byte sequence, `validate_checksum`
returns true exactly when the SHA-256 digest of the given bytes is
byte-for-byte equal to the stored checksum; it is a total boolean function
(never an error) and hashes exactly the bytes it is given. -/
theorem C5_validate_checksum (h : BzImageHeader) (C : List Nat) :
    BzImageHeader.validate_checksum h C = true ↔ sha256 C = h.checksum := by
  simp [BzImageHeader.validate_checksum, BzImageHeader.checksum_copy]

/-- C6: `read_from` decodes the version field but never compares it against
the `VERSION` constant: every stream of at least 64 bytes beginning with the
correct magic decodes successfully, whatever the value stored in the version
bytes, and the decoded version is exactly the little-endian value of bytes
4 to 7. -/
theorem C6_version_permissive (s : List Nat) (hlen : 64 ≤ s.length)
    (hm : s.take 4 = MAGIC) :
    ∃ h rest, BzImageHeader.read_from s = Except.ok (h, rest) ∧
      h.version = fromLEBytes ((s.drop 4).take 4) :=
  ⟨_, _, read_from_ok s hlen hm, rfl⟩

/-- Witness for C6 at a stream whose version bytes hold 0xFFFFFFFF, a value
different from the supported VERSION constant. -/
theorem C6_version_permissive_witness :
    ∃ h rest,
      BzImageHeader.read_from
          (MAGIC ++ ([255, 255, 255, 255] ++ List.replicate 56 0)) =
        Except.ok (h, rest) ∧
      h.version =
        fromLEBytes
          (((MAGIC ++ ([255, 255, 255, 255] ++ List.replicate 56 0)).drop 4).take 4) :=
  C6_version_permissive (MAGIC ++ ([255, 255, 255, 255] ++ List.replicate 56 0))
    (by decide) (by decide)

/-- C8: `read_header_and_payload` is framing only. For every byte stream
containing a well-formed 64-byte header followed by at least compressed_size
bytes it succeeds — with no hypothesis relating the stored checksum to the
payload and no hypothesis on the payload content (so also when the checksum
does not match and when the payload is not valid gzip data) — and it
returns the header together with exactly compressed_size payload bytes,
the bytes immediately following the header. -/
theorem C8_framing_only (s : List Nat) (hb : ∀ b ∈ s, b < 256)
    (hlen : 64 ≤ s.length) (hm : s.take 4 = MAGIC)
    (hpay : 64 + fromLEBytes ((s.drop 20).take 8) ≤ s.length) :
    ∃ h, BzImageHeader.read_header_and_payload s =
        Except.ok (h, (s.drop 64).take (fromLEBytes ((s.drop 20).take 8))) ∧
      h.compressed_size = fromLEBytes ((s.drop 20).take 8) ∧
      ((s.drop 64).take (fromLEBytes ((s.drop 20).take 8))).length =
        fromLEBytes ((s.drop 20).take 8) := by
  have hmain : BzImageHeader.read_header_and_payload s =
      Except.ok
        ({ magic := MAGIC, version := fromLEBytes ((s.drop 4).take 4),
           reserved1 := fromLEBytes ((s.drop 8).take 4),
           uncompressed_size := fromLEBytes ((s.drop 12).take 8),
           compressed_size := fromLEBytes ((s.drop 20).take 8),
           checksum := (s.drop 28).take 32,
           reserved2 := fromLEBytes ((s.drop 60).take 4) },
          (s.drop 64).take (fromLEBytes ((s.drop 20).take 8))) := by
    rw [BzImageHeader.read_header_and_payload,
      BzImageHeader.read_header_and_payload_w, read_from_ok s hlen hm,
      exceptBind_ok]
    dsimp only
    rw [Nat.mod_eq_of_lt (compressed_field_lt s hb hlen),
      readBytesE_ok _ _ (by simp only [List.length_drop]; omega),
      exceptBind_ok]
  refine ⟨_, hmain, rfl, ?_⟩
  simp only [List.length_take, List.length_drop]
  omega

/-- Witness for C8 at a stream whose stored checksum (all zeros) does not
match the digest of its 2-byte payload, which is not gzip data either. -/
theorem C8_framing_only_witness :
    ∃ h,
      BzImageHeader.read_header_and_payload
          (MAGIC ++ ([1, 0, 0, 0] ++ ([0, 0, 0, 0] ++
            ([0, 0, 0, 0, 0, 0, 0, 0] ++ ([2, 0, 0, 0, 0, 0, 0, 0] ++
            (List.replicate 32 0 ++ ([0, 0, 0, 0] ++ [7, 8]))))))) =
        Except.ok
          (h,
            ((MAGIC ++ ([1, 0, 0, 0] ++ ([0, 0, 0, 0] ++
              ([0, 0, 0, 0, 0, 0, 0, 0] ++ ([2, 0, 0, 0, 0, 0, 0, 0] ++
              (List.replicate 32 0 ++ ([0, 0, 0, 0] ++ [7, 8]))))))).drop 64).take
              (fromLEBytes
                (((MAGIC ++ ([1, 0, 0, 0] ++ ([0, 0, 0, 0] ++
                  ([0, 0, 0, 0, 0, 0, 0, 0] ++ ([2, 0, 0, 0, 0, 0, 0, 0] ++
                  (List.replicate 32 0 ++ ([0, 0, 0, 0] ++ [7, 8]))))))).drop 20).take
                  8))) ∧
      h.compressed_size =
        fromLEBytes
          (((MAGIC ++ ([1, 0, 0, 0] ++ ([0, 0, 0, 0] ++
            ([0, 0, 0, 0, 0, 0, 0, 0] ++ ([2, 0, 0, 0, 0, 0, 0, 0] ++
            (List.replicate 32 0 ++ ([0, 0, 0, 0] ++ [7, 8]))))))).drop 20).take
            8) ∧
      (((MAGIC ++ ([1, 0, 0, 0] ++ ([0, 0, 0, 0] ++
        ([0, 0, 0, 0, 0, 0, 0, 0] ++ ([2, 0, 0, 0, 0, 0, 0, 0] ++
        (List.replicate 32 0 ++ ([0, 0, 0, 0] ++ [7, 8]))))))).drop 64).take
          (fromLEBytes
            (((MAGIC ++ ([1, 0, 0, 0] ++ ([0, 0, 0, 0] ++
              ([0, 0, 0, 0, 0, 0, 0, 0] ++ ([2, 0, 0, 0, 0, 0, 0, 0] ++
              (List.replicate 32 0 ++ ([0, 0, 0, 0] ++ [7, 8]))))))).drop 20).take
              8))).length =
        fromLEBytes
          (((MAGIC ++ ([1, 0, 0, 0] ++ ([0, 0, 0, 0] ++
            ([0, 0, 0, 0, 0, 0, 0, 0] ++ ([2, 0, 0, 0, 0, 0, 0, 0] ++
            (List.replicate 32 0 ++ ([0, 0, 0, 0] ++ [7, 8]))))))).drop 20).take
            8) :=
  C8_framing_only
    (MAGIC ++ ([1, 0, 0, 0] ++ ([0, 0, 0, 0] ++
      ([0, 0, 0, 0, 0, 0, 0, 0] ++ ([2, 0, 0, 0, 0, 0, 0, 0] ++
      (List.replicate 32 0 ++ ([0, 0, 0, 0] ++ [7, 8])))))))
    (by decide) (by decide) (by decide) (by decide)

/-- C9: every header successfully returned by `read_from` has a magic field
equal to the ASCII bytes `D`, `M`, `N`, `Z`, so `magic_copy` on any decoded
header always equals the `MAGIC` constant. -/
theorem C9_decoded_magic (s : List Nat) (h : BzImageHeader) (rest : List Nat)
    (hok : BzImageHeader.read_from s = Except.ok (h, rest)) :
    BzImageHeader.magic_copy h = MAGIC := by
  obtain ⟨hlen, hm⟩ := read_from_ok_inv s (h, rest) hok
  rw [read_from_ok s hlen hm] at hok
  simp only [Except.ok.injEq, Prod.mk.injEq] at hok
  rw [BzImageHeader.magic_copy, ← hok.1]

/-- Witness for C9 at a concrete decodable stream. -/
theorem C9_decoded_magic_witness :
    BzImageHeader.magic_copy
        ⟨MAGIC, 0, 0, 0, 0, List.replicate 32 0, 0⟩ = MAGIC :=
  C9_decoded_magic (MAGIC ++ List.replicate 60 0)
    ⟨MAGIC, 0, 0, 0, 0, List.replicate 32 0, 0⟩ [] (by decide)

/-- C10: `read_header_and_payload` converts the 64-bit compressed_size
field to usize with a truncating cast (modelled by the usize bit width `w`
of `read_header_and_payload_w`); on every successful call the returned
payload length equals compressed_size reduced modulo `2 ^ w`, which equals
compressed_size exactly when the value fits in `w` bits (always the case on
64-bit targets, where the field is a `u64` and `w = 64`). -/
theorem C10_payload_cast (w : Nat) (s : List Nat) (h : BzImageHeader)
    (p : List Nat)
    (hok : BzImageHeader.read_header_and_payload_w w s = Except.ok (h, p)) :
    p.length = h.compressed_size % 2 ^ w ∧
    (h.compressed_size < 2 ^ w → p.length = h.compressed_size) := by
  rw [BzImageHeader.read_header_and_payload_w] at hok
  cases hres : BzImageHeader.read_from s with
  | error e =>
      rw [hres, exceptBind_err] at hok
      exact absurd hok (by simp)
  | ok ph =>
      rw [hres, exceptBind_ok] at hok
      by_cases hle : ph.1.compressed_size % 2 ^ w ≤ ph.2.length
      · rw [readBytesE_ok _ _ hle, exceptBind_ok] at hok
        dsimp only at hok
        simp only [Except.ok.injEq, Prod.mk.injEq] at hok
        obtain ⟨hh, hp⟩ := hok
        subst hh
        constructor
        · rw [← hp]
          simp only [List.length_take, List.length_drop]
          omega
        · intro hfit
          rw [← hp]
          simp only [List.length_take, List.length_drop]
          rw [Nat.mod_eq_of_lt hfit] at hle ⊢
          omega
      · rw [readBytesE_err _ _ (by omega), exceptBind_err] at hok
        exact absurd hok (by simp)

/-- Witness for C10 on the 64-bit width at a stream declaring a 2-byte
payload. -/
theorem C10_payload_cast_witness :
    ([7, 8] : List Nat).length =
      (⟨MAGIC, 1, 0, 0, 2, List.replicate 32 0, 0⟩ : BzImageHeader).compressed_size %
        2 ^ 64 ∧
    ((⟨MAGIC, 1, 0, 0, 2, List.replicate 32 0, 0⟩ : BzImageHeader).compressed_size <
        2 ^ 64 →
      ([7, 8] : List Nat).length =
        (⟨MAGIC, 1, 0, 0, 2, List.replicate 32 0, 0⟩ : BzImageHeader).compressed_size) :=
  C10_payload_cast 64
    (MAGIC ++ ([1, 0, 0, 0] ++ ([0, 0, 0, 0] ++
      ([0, 0, 0, 0, 0, 0, 0, 0] ++ ([2, 0, 0, 0, 0, 0, 0, 0] ++
      (List.replicate 32 0 ++ ([0, 0, 0, 0] ++ [7, 8])))))))
    ⟨MAGIC, 1, 0, 0, 2, List.replicate 32 0, 0⟩ [7, 8] (by decide)
